import Mathlib

/- Shallow embedding of the AirBnB listings command line tool
   (solution/AirBnBDataHandler.js, solution/main.js).
   JavaScript numbers are modelled as exact rationals; IEEE rounding and
   the infinities are outside the model, and NaN is represented by
   Option.none at the points where the source tests for it. -/

/-- JavaScript whitespace test (common ASCII subset), as used by parseInt,
parseFloat, String.prototype.trim and the csv-parse trim option. -/
def jsIsWs (c : Char) : Bool :=
  c = ' ' || c = '\t' || c = '\n' || c = '\r' || c = '\x0B' || c = '\x0C'

/-- Trim JavaScript whitespace from both ends of a character list. -/
def trimChars (cs : List Char) : List Char :=
  ((cs.dropWhile jsIsWs).reverse.dropWhile jsIsWs).reverse

/-- Model of String.prototype.trim, also used for the csv-parse option
trim that the source passes when parsing the CSV. -/
def jsTrim (s : String) : String :=
  String.mk (trimChars s.data)

/-- Value of a list of decimal digit characters. -/
def digitsToNat (cs : List Char) : Nat :=
  cs.foldl (fun n c => 10 * n + (c.toNat - 48)) 0

/-- Hexadecimal digit test, for the parseInt 0x prefix handling. -/
def isHexDigit (c : Char) : Bool :=
  c.isDigit || ('a' ≤ c && c ≤ 'f') || ('A' ≤ c && c ≤ 'F')

/-- Value of one hexadecimal digit character. -/
def hexVal (c : Char) : Nat :=
  if c.isDigit then c.toNat - 48
  else if 'a' ≤ c && c ≤ 'f' then c.toNat - 87
  else c.toNat - 55

/-- Value of a list of hexadecimal digit characters. -/
def hexDigitsToNat (cs : List Char) : Nat :=
  cs.foldl (fun n c => 16 * n + hexVal c) 0

/-- Read an optional leading sign, returning whether a minus sign was
seen and the remaining characters. -/
def readSign (cs : List Char) : Bool × List Char :=
  match cs with
  | [] => (false, [])
  | c :: rest =>
    if c = '-' then (true, rest)
    else if c = '+' then (false, rest)
    else (false, c :: rest)

/-- Attach the recorded sign to a parsed magnitude. -/
def applySign (neg : Bool) (n : Nat) : Int :=
  if neg then -(n : Int) else (n : Int)

/-- Decimal branch of parseInt: longest run of decimal digits, NaN
(none) when there is none. -/
def parseIntDecimal (neg : Bool) (cs : List Char) : Option Int :=
  let ds := cs.takeWhile Char.isDigit
  if ds.isEmpty then none else some (applySign neg (digitsToNat ds))

/-- Body of parseInt after the sign: a 0x or 0X prefix switches to
hexadecimal, otherwise the longest decimal digit run is taken. -/
def parseIntAfterSign (neg : Bool) (cs : List Char) : Option Int :=
  match cs with
  | '0' :: c :: rest =>
    if c = 'x' || c = 'X' then
      let ds := rest.takeWhile isHexDigit
      if ds.isEmpty then none else some (applySign neg (hexDigitsToNat ds))
    else parseIntDecimal neg ('0' :: c :: rest)
  | _ => parseIntDecimal neg cs

/-- Model of the JavaScript global parseInt with no radix argument, as
called on the accommodates column and the room prompts; none is NaN. -/
def jsParseInt (s : String) : Option Int :=
  let cs := s.data.dropWhile jsIsWs
  let sg := readSign cs
  parseIntAfterSign sg.1 sg.2

/-- Fractional digits of a float literal: present only after a dot. -/
def fracOf : List Char → List Char
  | c :: rest => if c = '.' then rest.takeWhile Char.isDigit else []
  | [] => []

/-- Characters remaining after the mantissa of a float literal. -/
def afterFrac : List Char → List Char
  | c :: rest => if c = '.' then rest.dropWhile Char.isDigit else c :: rest
  | [] => []

/-- Exponent part of a float literal, if one directly follows the
mantissa: sign of the exponent and its digits. An exponent marker
without digits contributes no digits and is thereby ignored, as in JS. -/
def expScan (cs : List Char) : Bool × List Char :=
  match cs with
  | c :: rest =>
    if c = 'e' || c = 'E' then
      let esg := readSign rest
      (esg.1, esg.2.takeWhile Char.isDigit)
    else (false, [])
  | [] => (false, [])

/-- Components of the longest leading float literal of a character
list: mantissa sign, integer digits, fraction digits, exponent sign and
exponent digits. -/
structure FloatParse where
  neg : Bool
  intDigits : List Char
  fracDigits : List Char
  expNeg : Bool
  expDigits : List Char
  deriving Repr, DecidableEq

/-- Scan of the parseFloat grammar: sign, digits, optional dot and
fraction digits, optional exponent. Purely character level. -/
def floatScan (cs : List Char) : FloatParse :=
  let sg := readSign cs
  let intPart := sg.2.takeWhile Char.isDigit
  let cs2 := sg.2.dropWhile Char.isDigit
  let es := expScan (afterFrac cs2)
  { neg := sg.1, intDigits := intPart, fracDigits := fracOf cs2,
    expNeg := es.1, expDigits := es.2 }

/-- Numeric value of scanned float components. -/
def floatVal (p : FloatParse) : ℚ :=
  let mant : ℚ :=
    (digitsToNat p.intDigits : ℚ) + (digitsToNat p.fracDigits : ℚ) / (10 : ℚ) ^ p.fracDigits.length
  let m2 : ℚ :=
    if p.expDigits.isEmpty then mant
    else if p.expNeg then mant / (10 : ℚ) ^ digitsToNat p.expDigits
    else mant * (10 : ℚ) ^ digitsToNat p.expDigits
  if p.neg then -m2 else m2

/-- Parse the longest leading float literal of a character list; none is
NaN. The literal is valid when it has at least one integer or fraction
digit. -/
def parseFloatChars (cs : List Char) : Option ℚ :=
  let p := floatScan cs
  if p.intDigits.isEmpty && p.fracDigits.isEmpty then none
  else some (floatVal p)

/-- Model of the JavaScript global parseFloat, as called on the price
and review_scores_rating columns and the numeric prompts. -/
def jsParseFloat (s : String) : Option ℚ :=
  parseFloatChars (s.data.dropWhile jsIsWs)

/-- Model of the JavaScript expression x or-else 0 applied to a parse
result: NaN becomes 0; a parsed 0 is also 0, so Option.getD semantics
coincide with the source. -/
def orZero (o : Option ℚ) : ℚ :=
  match o with
  | none => 0
  | some v => v

/-- One raw CSV row, restricted to the four columns with normalization
semantics; none models a missing column (undefined). The remaining
columns are an opaque payload that the claims do not touch. -/
structure RawRow where
  price : Option String
  accommodates : Option String
  review_scores_rating : Option String
  host_id : Option String
  deriving Repr, DecidableEq

/-- One listing after normalization, AirBnBDataHandler.js lines 7 to 15. -/
structure Listing where
  price : ℚ
  accommodates : Int
  review_scores_rating : ℚ
  host_id : String
  deriving Repr, DecidableEq

/-- Normalization of the price column, AirBnBDataHandler.js lines 51-53:
falsy (missing or empty) gives 0, otherwise every character other than
a decimal digit or a dot is stripped, the rest parseFloat-ed, NaN
giving 0. -/
def normalizePrice (raw : Option String) : ℚ :=
  match raw with
  | none => 0
  | some s =>
    if s.data.isEmpty then 0
    else orZero (jsParseFloat (String.mk (s.data.filter (fun c => c.isDigit || c = '.'))))

/-- Normalization of the accommodates column, AirBnBDataHandler.js line
54: parseInt, with NaN or 0 replaced by 1. -/
def normalizeAccommodates (raw : Option String) : Int :=
  match raw with
  | none => 1
  | some s =>
    match jsParseInt s with
    | none => 1
    | some v => if v = 0 then 1 else v

/-- Normalization of the review_scores_rating column,
AirBnBDataHandler.js lines 55-57: falsy gives 0, otherwise parseFloat
with NaN giving 0. -/
def normalizeReview (raw : Option String) : ℚ :=
  match raw with
  | none => 0
  | some s =>
    if s.data.isEmpty then 0
    else orZero (jsParseFloat s)

/-- Row mapping and host filter of loadListings, AirBnBDataHandler.js
lines 48-63. Each field is first trimmed, modelling the csv-parse trim
option (line 45). The host_id must be truthy and match the anchored
digits-only regular expression, in which case the trimmed value is
kept; otherwise the row is dropped (map to null host_id, then filter). -/
def normalizeRow (r : RawRow) : Option Listing :=
  match r.host_id.map jsTrim with
  | none => none
  | some t =>
    if !t.data.isEmpty && t.data.all Char.isDigit then
      some { price := normalizePrice (r.price.map jsTrim),
             accommodates := normalizeAccommodates (r.accommodates.map jsTrim),
             review_scores_rating := normalizeReview (r.review_scores_rating.map jsTrim),
             host_id := jsTrim t }
    else none

/-- Pure core of loadListings: the map-then-filter over parsed records,
written as a filterMap. File reading itself is the external boundary. -/
def normalizeListings (rows : List RawRow) : List Listing :=
  rows.filterMap normalizeRow

example : normalizeAccommodates (some "0x") = 1 := by decide
example : normalizeAccommodates (some "-3") = -3 := by decide
example : normalizeAccommodates (some "0x1A") = 26 := by decide
example : normalizeRow ⟨none, none, none, some " 42 "⟩ = some ⟨0, 1, 0, "42"⟩ := by decide
example : normalizeRow ⟨none, none, none, some "abc123"⟩ = none := by decide

example : normalizePrice (some "$1,200.50") = 2401 / 2 := by
  have h : normalizePrice (some "$1,200.50")
      = floatVal ⟨false, ['1', '2', '0', '0'], ['5', '0'], false, []⟩ := rfl
  have h1 : digitsToNat ['1', '2', '0', '0'] = 1200 := by decide
  have h2 : digitsToNat ['5', '0'] = 50 := by decide
  rw [h]
  simp [floatVal, h1, h2]
  norm_num

example : jsParseFloat "12e2" = some 1200 := by
  have h : jsParseFloat "12e2" = some (floatVal ⟨false, ['1', '2'], [], false, ['2']⟩) := rfl
  have h1 : digitsToNat ['1', '2'] = 12 := by decide
  have h2 : digitsToNat ['2'] = 2 := by decide
  rw [h]
  simp [floatVal, h1, h2, digitsToNat]
  norm_num

/-- User filter criteria, main.js lines 40-48: five optional numeric
bounds; none models the JavaScript null. -/
structure FilterCriteria where
  minPrice : Option ℚ
  maxPrice : Option ℚ
  minRooms : Option ℚ
  maxRooms : Option ℚ
  minReviewScore : Option ℚ
  deriving Repr, DecidableEq

/-- Predicate builder of the filter engine, AirBnBDataHandler.js lines
167-175: each conjunct is vacuously true when its bound is null,
otherwise the numeric comparison of the source. -/
def createFilterFunction (criteria : FilterCriteria) : Listing → Bool :=
  fun listing =>
    (match criteria.minPrice with
     | none => true
     | some v => decide (v ≤ listing.price)) &&
    (match criteria.maxPrice with
     | none => true
     | some v => decide (listing.price ≤ v)) &&
    (match criteria.minRooms with
     | none => true
     | some v => decide (v ≤ (listing.accommodates : ℚ))) &&
    (match criteria.maxRooms with
     | none => true
     | some v => decide ((listing.accommodates : ℚ) ≤ v)) &&
    (match criteria.minReviewScore with
     | none => true
     | some v => decide (v ≤ listing.review_scores_rating))

/-- Application of the filter engine to a listing collection. -/
def filterListings (criteria : FilterCriteria) (listings : List Listing) : List Listing :=
  listings.filter (createFilterFunction criteria)

/-- Statistics record, AirBnBDataHandler.js lines 17-24. -/
structure Statistics where
  total_count : Nat
  count : Nat
  avgPricePerRoom : ℚ
  avgPriceValidListings : ℚ
  deriving Repr, DecidableEq

/-- Statistics calculator, AirBnBDataHandler.js lines 182-198: the valid
subset has price strictly positive; the reduces are left folds from 0;
a zero count makes both averages 0 via the JS conditional. -/
def computeStatistics (listings : List Listing) : Statistics :=
  let validListings := listings.filter (fun listing => decide (0 < listing.price))
  let total_count := listings.length
  let count := validListings.length
  let totalRoomPrice :=
    validListings.foldl (fun acc listing => acc + listing.price / (listing.accommodates : ℚ)) 0
  let avgPricePerRoom := if count ≠ 0 then totalRoomPrice / (count : ℚ) else 0
  let totalPriceValidListings :=
    validListings.foldl (fun acc listing => acc + listing.price) 0
  let avgPriceValidListings := if count ≠ 0 then totalPriceValidListings / (count : ℚ) else 0
  { total_count := total_count, count := count,
    avgPricePerRoom := avgPricePerRoom, avgPriceValidListings := avgPriceValidListings }

/-- One entry of the host ranking, AirBnBDataHandler.js lines 26-31. -/
structure HostRanking where
  host_id : String
  count : Nat
  deriving Repr, DecidableEq

/-- One step of the host-count accumulation: an existing key is
incremented in place (JS objects keep the original property position on
update), a new key is appended. -/
def bump (al : List (String × Nat)) (k : String) : List (String × Nat) :=
  match al with
  | [] => [(k, 1)]
  | (k2, c) :: rest => if k2 = k then (k2, c + 1) :: rest else (k2, c) :: bump rest k

/-- The reduce of rankHosts, AirBnBDataHandler.js lines 115-118: the
host-count object as an insertion-ordered association list. -/
def buildHostCount (records : List Listing) : List (String × Nat) :=
  records.foldl (fun acc listing => bump acc listing.host_id) []

/-- Test for a canonical array-index property key: a digit string with
no leading zero (except the string 0 itself) whose value is at most
2 to the 32 minus 2. JavaScript objects enumerate such keys first, in
ascending numeric order, before all other string keys. -/
def isArrayIndex (s : String) : Bool :=
  !s.data.isEmpty && s.data.all Char.isDigit &&
    (s.data = ['0'] || !(s.data.head? = some '0')) &&
    decide (digitsToNat s.data ≤ 4294967294)

/-- Insert into a list sorted ascending by numeric key value. -/
def insAsc (x : String × Nat) : List (String × Nat) → List (String × Nat)
  | [] => [x]
  | y :: ys =>
    if digitsToNat x.1.data ≤ digitsToNat y.1.data then x :: y :: ys
    else y :: insAsc x ys

/-- Sort ascending by numeric key value (array-index keys are pairwise
distinct canonical numerals, so order among equals cannot arise). -/
def sortAscByKey : List (String × Nat) → List (String × Nat)
  | [] => []
  | x :: xs => insAsc x (sortAscByKey xs)

/-- Model of Object.entries on the host-count object: array-index keys
first in ascending numeric order, then the remaining keys in insertion
order, per the ECMAScript ordinary own property key ordering. -/
def jsObjectEntries (al : List (String × Nat)) : List (String × Nat) :=
  sortAscByKey (al.filter (fun e => isArrayIndex e.1)) ++
    al.filter (fun e => !isArrayIndex e.1)

/-- Stable insertion before the first entry of smaller or equal count:
entries passed over have strictly greater count, so equal counts keep
their relative order. -/
def insDesc (x : String × Nat) : List (String × Nat) → List (String × Nat)
  | [] => [x]
  | y :: ys => if y.2 ≤ x.2 then x :: y :: ys else y :: insDesc x ys

/-- Stable sort by descending count, modelling the ECMAScript stable
Array.prototype.sort with comparator on the counts,
AirBnBDataHandler.js line 121. -/
def sortDescByCount : List (String × Nat) → List (String × Nat)
  | [] => []
  | x :: xs => insDesc x (sortDescByCount xs)

/-- Host ranking before truncation, AirBnBDataHandler.js lines 120-122:
entries of the count object, stable-sorted by descending count, mapped
to HostRanking records. -/
def topHostsOf (records : List Listing) : List HostRanking :=
  (sortDescByCount (jsObjectEntries (buildHostCount records))).map
    (fun e => { host_id := e.1, count := e.2 })

/-- Full rankHosts computation, AirBnBDataHandler.js lines 114-126,
including the slice to the first 15 entries (line 123). -/
def rankHostsList (records : List Listing) : List HostRanking :=
  (topHostsOf records).take 15

/-- Closure state of the handler, AirBnBDataHandler.js lines 86-88: the
filtered records, the statistics (initially the empty object, modelled
none) and the top hosts (initially the empty array). -/
structure HandlerState where
  filteredRecords : List Listing
  stats : Option Statistics
  topHosts : List HostRanking
  deriving Repr, DecidableEq

/-- Constructor AirBnBDataHandler, lines 85-88: the records start as a
shallow copy of the input array (spread), so the callers array is
never mutated; in the pure embedding the copy is the list itself. -/
def AirBnBDataHandler (listings : List Listing) : HandlerState :=
  { filteredRecords := listings, stats := none, topHosts := [] }

/-- Method filter, lines 96-99: replaces the internal records with the
filtering of the current records and returns the handler. -/
def HandlerState.filter (st : HandlerState) (criteria : FilterCriteria) : HandlerState :=
  { st with filteredRecords := st.filteredRecords.filter (createFilterFunction criteria) }

/-- Method computeStats, lines 105-108. -/
def HandlerState.computeStats (st : HandlerState) : HandlerState :=
  { st with stats := some (computeStatistics st.filteredRecords) }

/-- Method rankHosts, lines 114-126. -/
def HandlerState.rankHosts (st : HandlerState) : HandlerState :=
  { st with topHosts := rankHostsList st.filteredRecords }

/-- Method getData, lines 154-156. -/
def HandlerState.getData (st : HandlerState) :
    List Listing × Option Statistics × List HostRanking :=
  (st.filteredRecords, st.stats, st.topHosts)

/-- Outcome messages of the export operation. -/
inductive ExportMsg where
  | nothingToExport
  | exportedOk
  | writeError
  deriving Repr, DecidableEq

/-- Result of one export request: whether a file was written and what
was reported. -/
structure ExportOutcome where
  wrote : Bool
  msg : ExportMsg
  deriving Repr, DecidableEq

/-- Method exportData, AirBnBDataHandler.js lines 134-148: an empty
record set writes nothing and logs that there is no data; otherwise the
write is attempted, with success an outside condition of the file
system, and a failing write is caught and logged. In every branch the
method returns the handler, so the session continues. -/
def exportData (filteredRecords : List Listing) (writeSucceeds : Bool) : ExportOutcome :=
  if filteredRecords.isEmpty then { wrote := false, msg := ExportMsg.nothingToExport }
  else if writeSucceeds then { wrote := true, msg := ExportMsg.exportedOk }
  else { wrote := false, msg := ExportMsg.writeError }

/-- Conversion of one float prompt answer, main.js lines 40-44: the JS
expression parseFloat(input) or-else null maps NaN and a parsed 0 to
null, every other parsed value to an active bound. -/
def promptFloat (s : String) : Option ℚ :=
  match jsParseFloat s with
  | none => none
  | some v => if v = 0 then none else some v

/-- Conversion of one integer prompt answer (the room prompts),
main.js lines 42-43, with the same or-else null collapse. -/
def promptInt (s : String) : Option ℚ :=
  match jsParseInt s with
  | none => none
  | some v => if v = 0 then none else some ((v : ℚ))

/-- The five prompt answers of a session, as entered. -/
structure PromptInputs where
  minPrice : String
  maxPrice : String
  minRooms : String
  maxRooms : String
  minReviewScore : String
  deriving Repr, DecidableEq

/-- Criteria object built from the prompt answers, main.js lines 40-48. -/
def criteriaOfInputs (p : PromptInputs) : FilterCriteria :=
  { minPrice := promptFloat p.minPrice, maxPrice := promptFloat p.maxPrice,
    minRooms := promptInt p.minRooms, maxRooms := promptInt p.maxRooms,
    minReviewScore := promptFloat p.minReviewScore }

/-- Observable result of one session of run, main.js lines 24-88. The
exit code models the Node process status: run never calls process.exit
and never rethrows (the catch on line 83 only logs), so the process
always terminates normally with status zero. -/
structure SessionResult where
  exitCode : Nat
  loadDiagnostic : Bool
  analysisShown : Bool
  exportOutcome : Option ExportOutcome
  deriving Repr, DecidableEq

/-- The run workflow, main.js lines 24-88, as a function of the load
outcome, the prompt answers, the export path answer and the outside
write condition. A load or parse failure is rethrown by loadListings
(line 66), caught by run (line 83) after the diagnostics are printed,
and the function returns normally: exit code zero, no analysis output.
On success the handler chain is applied and a non-blank export path
triggers the export. -/
def runSession (loadRes : Except String (List RawRow)) (p : PromptInputs)
    (exportPath : String) (writeSucceeds : Bool) : SessionResult :=
  match loadRes with
  | Except.error _ =>
    { exitCode := 0, loadDiagnostic := true, analysisShown := false, exportOutcome := none }
  | Except.ok rows =>
    let listings := normalizeListings rows
    let st := (((AirBnBDataHandler listings).filter (criteriaOfInputs p)).computeStats).rankHosts
    { exitCode := 0, loadDiagnostic := false, analysisShown := true,
      exportOutcome :=
        if exportPath.data.isEmpty then none
        else some (exportData st.filteredRecords writeSucceeds) }

example : rankHostsList [⟨0, 1, 0, "5"⟩, ⟨0, 1, 0, "3"⟩] = [⟨"3", 1⟩, ⟨"5", 1⟩] := by decide
example : promptFloat "" = none := by decide
example : jsObjectEntries [("007", 1), ("5", 2)] = [("5", 2), ("007", 1)] := by decide

theorem jsIsWs_false_of_isDigit {c : Char} (h : c.isDigit = true) : jsIsWs c = false := by
  cases hw : jsIsWs c with
  | false => rfl
  | true =>
    exfalso
    simp only [jsIsWs, Bool.or_eq_true, decide_eq_true_eq] at hw
    have hd : c = ' ' ∨ c = '\t' ∨ c = '\n' ∨ c = '\r' ∨ c = '\x0B' ∨ c = '\x0C' := by
      tauto
    rcases hd with h1 | h1 | h1 | h1 | h1 | h1 <;> subst h1 <;> exact absurd h (by decide)

theorem dropWhile_jsIsWs_of_digits {cs : List Char} (h : cs.all Char.isDigit = true) :
    cs.dropWhile jsIsWs = cs := by
  cases cs with
  | nil => rfl
  | cons c rest =>
    have hc : c.isDigit = true := by
      have := List.all_eq_true.mp h c (by simp)
      simpa using this
    simp [List.dropWhile_cons, jsIsWs_false_of_isDigit hc]

theorem all_digits_reverse {cs : List Char} (h : cs.all Char.isDigit = true) :
    cs.reverse.all Char.isDigit = true := by
  rw [List.all_eq_true] at h ⊢
  intro c hc
  exact h c (List.mem_reverse.mp hc)

theorem jsTrim_of_digits {s : String} (h : s.data.all Char.isDigit = true) :
    jsTrim s = s := by
  have h1 : s.data.dropWhile jsIsWs = s.data := dropWhile_jsIsWs_of_digits h
  have h2 : s.data.reverse.dropWhile jsIsWs = s.data.reverse :=
    dropWhile_jsIsWs_of_digits (all_digits_reverse h)
  show String.mk (trimChars s.data) = s
  rw [trimChars, h1, h2, List.reverse_reverse]

theorem normalizeAccommodates_ne_zero (raw : Option String) :
    normalizeAccommodates raw ≠ 0 := by
  unfold normalizeAccommodates
  cases raw with
  | none => decide
  | some s =>
    rcases hj : jsParseInt s with _ | v
    · simp [hj]
    · simp only [hj]
      by_cases hv : v = 0
      · simp [hv]
      · simp [hv]

theorem normalizeRow_some {r : RawRow} {l : Listing} (h : normalizeRow r = some l) :
    l.accommodates ≠ 0 ∧ l.host_id.data ≠ [] ∧ l.host_id.data.all Char.isDigit = true := by
  unfold normalizeRow at h
  cases hr : r.host_id with
  | none => rw [hr] at h; simp at h
  | some raw =>
    rw [hr] at h
    simp only [Option.map_some'] at h
    by_cases hc : (!(jsTrim raw).data.isEmpty && (jsTrim raw).data.all Char.isDigit) = true
    · rw [if_pos hc] at h
      have hl := Option.some.inj h
      simp only [Bool.and_eq_true] at hc
      have hdig : (jsTrim raw).data.all Char.isDigit = true := hc.2
      have hne : (jsTrim raw).data ≠ [] := by
        have h0 := hc.1
        simp only [Bool.not_eq_true'] at h0
        exact fun hnil => by simp [List.isEmpty_iff.mpr hnil] at h0
      have hid : jsTrim (jsTrim raw) = jsTrim raw := jsTrim_of_digits hdig
      refine ⟨?_, ?_, ?_⟩
      · rw [← hl]
        exact normalizeAccommodates_ne_zero _
      · rw [← hl]
        simpa [hid] using hne
      · rw [← hl]
        simpa [hid] using hdig
    · rw [if_neg hc] at h
      simp at h

/-- Claim C4, counterexample: a raw row with accommodates -3 survives
normalization with a negative accommodates, so the field is not always
a positive integer. -/
theorem claim_C4_counterexample :
    normalizeRow ⟨none, some "-3", none, some "7"⟩ = some ⟨0, -3, 0, "7"⟩ ∧
    ((normalizeRow ⟨none, some "-3", none, some "7"⟩).all
      fun l => decide (0 < l.accommodates)) = false := by
  decide

/-- Claim C4, amended: every listing surviving normalization has a
nonzero accommodates, so the division price over accommodates is well
defined, and a missing, unparseable or zero raw value (including 0x)
yields 1; but a negative raw integer passes through, so the field need
not be positive. -/
theorem claim_C4_amended :
    (∀ rows : List RawRow,
      ((normalizeListings rows).all fun l => l.accommodates != 0) = true) ∧
    normalizeAccommodates (some "0x") = 1 ∧
    normalizeAccommodates none = 1 ∧
    normalizeAccommodates (some "") = 1 ∧
    normalizeAccommodates (some "0") = 1 := by
  refine ⟨fun rows => ?_, by decide, by decide, by decide, by decide⟩
  rw [List.all_eq_true]
  intro l hl
  rw [normalizeListings, List.mem_filterMap] at hl
  obtain ⟨r, _, hr⟩ := hl
  have := (normalizeRow_some hr).1
  simpa using this

/-- Claim C5: every listing surviving normalization has a non-empty
digits-only host_id; rows with an empty, missing or non-numeric raw
host_id are dropped entirely, and a whitespace-padded numeric host_id
survives trimmed. -/
theorem claim_C5 :
    (∀ rows : List RawRow,
      ((normalizeListings rows).all
        fun l => !l.host_id.data.isEmpty && l.host_id.data.all Char.isDigit) = true) ∧
    normalizeRow ⟨none, none, none, some "abc123"⟩ = none ∧
    normalizeRow ⟨none, none, none, some ""⟩ = none ∧
    normalizeRow ⟨none, none, none, none⟩ = none ∧
    normalizeRow ⟨none, none, none, some " 42 "⟩ = some ⟨0, 1, 0, "42"⟩ := by
  refine ⟨fun rows => ?_, by decide, by decide, by decide, by decide⟩
  rw [List.all_eq_true]
  intro l hl
  rw [normalizeListings, List.mem_filterMap] at hl
  obtain ⟨r, _, hr⟩ := hl
  obtain ⟨-, hne, hdig⟩ := normalizeRow_some hr
  simp [hdig, List.isEmpty_iff, hne]

theorem takeWhile_digits_of_dots {cs : List Char} (h : ∀ x ∈ cs, x = '.') :
    cs.takeWhile Char.isDigit = [] := by
  cases cs with
  | nil => rfl
  | cons c rest =>
    have hc : c = '.' := h c (by simp)
    subst hc
    have hd : ('.').isDigit = false := by decide
    simp [List.takeWhile_cons, hd]

theorem dropWhile_digits_of_dots {cs : List Char} (h : ∀ x ∈ cs, x = '.') :
    cs.dropWhile Char.isDigit = cs := by
  cases cs with
  | nil => rfl
  | cons c rest =>
    have hc : c = '.' := h c (by simp)
    subst hc
    have hd : ('.').isDigit = false := by decide
    simp [List.dropWhile_cons, hd]

theorem fracOf_of_dots {cs : List Char} (h : ∀ x ∈ cs, x = '.') : fracOf cs = [] := by
  cases cs with
  | nil => rfl
  | cons c rest =>
    have hc : c = '.' := h c (by simp)
    subst hc
    have hrest : ∀ x ∈ rest, x = '.' := fun x hx => h x (by simp [hx])
    simp [fracOf, takeWhile_digits_of_dots hrest]

theorem readSign_of_not_sign {c : Char} {rest : List Char} (h1 : c ≠ '-') (h2 : c ≠ '+') :
    readSign (c :: rest) = (false, c :: rest) := by
  simp [readSign, h1, h2]

theorem parseFloatChars_of_dots {cs : List Char} (h : ∀ x ∈ cs, x = '.') :
    parseFloatChars cs = none := by
  cases cs with
  | nil => rfl
  | cons c rest =>
    have hc : c = '.' := h c (by simp)
    subst hc
    have hsg : readSign ('.' :: rest) = (false, '.' :: rest) :=
      readSign_of_not_sign (by decide) (by decide)
    have h2 : ('.' :: rest).takeWhile Char.isDigit = [] := takeWhile_digits_of_dots h
    have h3 : ('.' :: rest).dropWhile Char.isDigit = '.' :: rest := dropWhile_digits_of_dots h
    have h4 : fracOf ('.' :: rest) = [] := fracOf_of_dots h
    simp [parseFloatChars, floatScan, hsg, h2, h3, h4]

theorem floatVal_nonneg {p : FloatParse} (h : p.neg = false) : 0 ≤ floatVal p := by
  unfold floatVal
  rw [h]
  simp only [Bool.false_eq_true, if_false]
  split
  · positivity
  · split
    · positivity
    · positivity

theorem floatScan_neg_false {cs : List Char}
    (h : ∀ x ∈ cs, (x.isDigit || decide (x = '.')) = true) : (floatScan cs).neg = false := by
  cases cs with
  | nil => rfl
  | cons c rest =>
    have hc := h c (by simp)
    have hc1 : c ≠ '-' := by
      rintro rfl
      exact absurd hc (by decide)
    have hc2 : c ≠ '+' := by
      rintro rfl
      exact absurd hc (by decide)
    show (readSign (c :: rest)).1 = false
    rw [readSign_of_not_sign hc1 hc2]

theorem orZero_parseFloatChars_nonneg {cs : List Char}
    (h : ∀ x ∈ cs, (x.isDigit || decide (x = '.')) = true) :
    0 ≤ orZero (parseFloatChars cs) := by
  have hneg := floatScan_neg_false h
  simp only [parseFloatChars]
  split
  · simp [orZero]
  · simp only [orZero]
    exact floatVal_nonneg hneg

theorem jsParseFloat_mk (cs : List Char) :
    jsParseFloat (String.mk cs) = parseFloatChars (cs.dropWhile jsIsWs) := rfl

theorem dropWhile_subset_pred (p : Char → Bool) {q : Char → Bool} {cs : List Char}
    (h : ∀ x ∈ cs, q x = true) : ∀ x ∈ cs.dropWhile p, q x = true :=
  fun x hx => h x ((List.dropWhile_sublist p).subset hx)

/-- Claim C8: normalized prices are always non-negative; the raw value
is stripped to digits and dots before parsing, as the currency example
shows; a missing, empty or digit-free raw value normalizes to 0. -/
theorem claim_C8 :
    (∀ raw : Option String, 0 ≤ normalizePrice raw) ∧
    normalizePrice (some "$1,200.50") = 2401 / 2 ∧
    normalizePrice none = 0 ∧
    normalizePrice (some "") = 0 ∧
    (∀ s : String, (s.data.all fun c => !c.isDigit) = true → normalizePrice (some s) = 0) := by
  refine ⟨fun raw => ?_, ?_, by decide, by decide, fun s hs => ?_⟩
  · cases raw with
    | none => simp [normalizePrice]
    | some s =>
      simp only [normalizePrice]
      split
      · exact le_refl 0
      · rw [jsParseFloat_mk]
        refine orZero_parseFloatChars_nonneg (dropWhile_subset_pred jsIsWs fun x hx => ?_)
        exact (List.mem_filter.mp hx).2
  · have h : normalizePrice (some "$1,200.50")
        = floatVal ⟨false, ['1', '2', '0', '0'], ['5', '0'], false, []⟩ := rfl
    have h1 : digitsToNat ['1', '2', '0', '0'] = 1200 := by decide
    have h2 : digitsToNat ['5', '0'] = 50 := by decide
    rw [h]
    simp [floatVal, h1, h2]
    norm_num
  · simp only [normalizePrice]
    split
    · rfl
    · rw [jsParseFloat_mk]
      rw [parseFloatChars_of_dots ?_]
      · rfl
      · intro x hx
        have hx2 := (List.dropWhile_sublist _).subset hx
        have hmem := List.mem_filter.mp hx2
        have hxd : x.isDigit = false := by
          have := List.all_eq_true.mp hs x hmem.1
          simpa using this
        have hp := hmem.2
        rw [hxd] at hp
        simpa using hp

/-- Witness for claim C8 at the concrete digit-free raw price abc. -/
theorem claim_C8_witness : normalizePrice (some "abc") = 0 ∧ 0 ≤ normalizePrice (some "abc") :=
  ⟨claim_C8.2.2.2.2 "abc" (by decide), claim_C8.1 (some "abc")⟩

theorem foldl_add_map (f : Listing → ℚ) :
    ∀ (l : List Listing) (a : ℚ), l.foldl (fun acc x => acc + f x) a = a + (l.map f).sum := by
  intro l
  induction l with
  | nil => intro a; simp
  | cons x xs ih =>
    intro a
    simp only [List.foldl_cons, List.map_cons, List.sum_cons, ih]
    ring

/-- Claim C6: the statistics calculator returns the full filtered
length as total_count, the number of strictly positive prices as count,
and the two means over that positive subset, both zero when the subset
is empty; the concrete two-listing example evaluates as the spec
states. -/
theorem claim_C6 :
    (∀ ls : List Listing,
      computeStatistics ls =
        { total_count := ls.length,
          count := (ls.filter fun l => decide (0 < l.price)).length,
          avgPricePerRoom :=
            if (ls.filter fun l => decide (0 < l.price)).length = 0 then 0
            else ((ls.filter fun l => decide (0 < l.price)).map
                    fun l => l.price / (l.accommodates : ℚ)).sum /
              (((ls.filter fun l => decide (0 < l.price)).length : ℚ)),
          avgPriceValidListings :=
            if (ls.filter fun l => decide (0 < l.price)).length = 0 then 0
            else ((ls.filter fun l => decide (0 < l.price)).map fun l => l.price).sum /
              (((ls.filter fun l => decide (0 < l.price)).length : ℚ)) }) ∧
    computeStatistics [⟨100, 2, 0, "1"⟩, ⟨0, 1, 0, "2"⟩] =
      { total_count := 2, count := 1, avgPricePerRoom := 50, avgPriceValidListings := 100 } := by
  constructor
  · intro ls
    simp only [computeStatistics, foldl_add_map, zero_add, ite_not]
  · have hf : ([⟨100, 2, 0, "1"⟩, ⟨0, 1, 0, "2"⟩] : List Listing).filter
        (fun l => decide (0 < l.price)) = [⟨100, 2, 0, "1"⟩] := by decide
    simp only [computeStatistics, hf]
    norm_num

/-- Claim C7: the filter engine is an order-preserving subsequence
selection by the conjunction of the set bounds; all bounds unset gives
the identity, and equal lower and upper price bounds of 100 select
exactly the price-100 listings. -/
theorem claim_C7 :
    (∀ ls : List Listing, filterListings ⟨none, none, none, none, none⟩ ls = ls) ∧
    (∀ (c : FilterCriteria) (ls : List Listing), (filterListings c ls).Sublist ls) ∧
    (∀ (c : FilterCriteria) (ls : List Listing) (l : Listing),
      l ∈ filterListings c ls ↔ l ∈ ls ∧ createFilterFunction c l = true) ∧
    (∀ ls : List Listing, filterListings ⟨some 100, some 100, none, none, none⟩ ls
      = ls.filter fun l => decide (l.price = 100)) := by
  refine ⟨fun ls => ?_, fun c ls => ?_, fun c ls l => ?_, fun ls => ?_⟩
  · simp [filterListings, createFilterFunction]
  · exact List.filter_sublist ls
  · exact List.mem_filter
  · refine List.filter_congr fun x _ => ?_
    simp only [createFilterFunction, Bool.and_true]
    by_cases hx : x.price = 100
    · simp [hx]
    · cases h1 : decide ((100 : ℚ) ≤ x.price) <;> cases h2 : decide (x.price ≤ (100 : ℚ)) <;>
        simp_all
      exact absurd (le_antisymm h2 h1) hx

/-- Claim C10: the handler chains by updating its internal filtered
records: two successive filters compose to the conjunction of both
criteria, filtering twice with the same criteria equals filtering once,
and before computeStats and rankHosts the handler state still carries
the empty statistics object and the empty top-host list. -/
theorem claim_C10 :
    (∀ (ls : List Listing) (c1 c2 : FilterCriteria),
      (((AirBnBDataHandler ls).filter c1).filter c2).filteredRecords
        = ls.filter fun l => createFilterFunction c1 l && createFilterFunction c2 l) ∧
    (∀ (ls : List Listing) (c : FilterCriteria),
      (((AirBnBDataHandler ls).filter c).filter c).filteredRecords
        = ((AirBnBDataHandler ls).filter c).filteredRecords) ∧
    (∀ ls : List Listing, (AirBnBDataHandler ls).getData = (ls, none, [])) := by
  refine ⟨fun ls c1 c2 => ?_, fun ls c => ?_, fun ls => rfl⟩
  · simp only [AirBnBDataHandler, HandlerState.filter, List.filter_filter]
    exact List.filter_congr fun x _ => Bool.and_comm _ _
  · simp only [AirBnBDataHandler, HandlerState.filter, List.filter_filter]
    exact List.filter_congr fun x _ => Bool.and_self _

theorem mem_insDesc {x z : String × Nat} :
    ∀ {l : List (String × Nat)}, z ∈ insDesc x l → z = x ∨ z ∈ l := by
  intro l
  induction l with
  | nil => intro h; simpa [insDesc] using h
  | cons y ys ih =>
    intro h
    rw [insDesc] at h
    split at h
    · rcases List.mem_cons.mp h with h1 | h1
      · exact Or.inl h1
      · exact Or.inr h1
    · rcases List.mem_cons.mp h with h1 | h1
      · exact Or.inr (List.mem_cons.mpr (Or.inl h1))
      · rcases ih h1 with h2 | h2
        · exact Or.inl h2
        · exact Or.inr (List.mem_cons.mpr (Or.inr h2))

theorem pairwise_insDesc {x : String × Nat} :
    ∀ {l : List (String × Nat)}, l.Pairwise (fun a b => b.2 ≤ a.2) →
      (insDesc x l).Pairwise (fun a b => b.2 ≤ a.2) := by
  intro l
  induction l with
  | nil => intro _; simp [insDesc]
  | cons y ys ih =>
    intro h
    rw [insDesc]
    rcases List.pairwise_cons.mp h with ⟨hy, hys⟩
    split
    · rename_i hle
      refine List.pairwise_cons.mpr ⟨?_, h⟩
      intro z hz
      rcases List.mem_cons.mp hz with h1 | h1
      · subst h1; exact hle
      · exact le_trans (hy z h1) hle
    · rename_i hgt
      refine List.pairwise_cons.mpr ⟨?_, ih hys⟩
      intro z hz
      rcases mem_insDesc hz with h1 | h1
      · subst h1; exact le_of_lt (lt_of_not_le hgt)
      · exact hy z h1

theorem pairwise_sortDescByCount (l : List (String × Nat)) :
    (sortDescByCount l).Pairwise (fun a b => b.2 ≤ a.2) := by
  induction l with
  | nil => simp [sortDescByCount]
  | cons x xs ih => exact pairwise_insDesc ih

theorem filter_insDesc (x : String × Nat) (c : Nat) :
    ∀ l : List (String × Nat),
      (insDesc x l).filter (fun e => e.2 == c)
        = if x.2 == c then x :: l.filter (fun e => e.2 == c)
          else l.filter (fun e => e.2 == c) := by
  intro l
  induction l with
  | nil =>
    by_cases hx : x.2 = c
    · simp [insDesc, List.filter, hx]
    · have hb : (x.2 == c) = false := by simpa using hx
      simp [insDesc, List.filter, hb, hx]
  | cons y ys ih =>
    rw [insDesc]
    split
    · rename_i hle
      by_cases hx : x.2 = c
      · simp [List.filter_cons, hx]
      · simp [List.filter_cons, hx]
    · rename_i hgt
      have hxy : x.2 < y.2 := lt_of_not_le hgt
      by_cases hy : y.2 = c
      · have hx : x.2 ≠ c := by
          subst hy
          exact Nat.ne_of_lt hxy
        simp [List.filter_cons, hy, ih, hx]
      · by_cases hx : x.2 = c
        · simp [List.filter_cons, hy, ih, hx]
        · simp [List.filter_cons, hy, ih, hx]

theorem filter_sortDescByCount (c : Nat) :
    ∀ l : List (String × Nat),
      (sortDescByCount l).filter (fun e => e.2 == c) = l.filter (fun e => e.2 == c) := by
  intro l
  induction l with
  | nil => rfl
  | cons x xs ih =>
    rw [sortDescByCount, filter_insDesc]
    by_cases hx : x.2 == c
    · simp [hx, List.filter_cons, ih]
    · simp [hx, List.filter_cons, ih]

/-- Claim C1, counterexample: two equal-count hosts first seen in the
order 5 then 3 are ranked 3 then 5, because the JavaScript host-count
object enumerates numeric keys in ascending order, not insertion
order; so ties do not preserve first-seen order. -/
theorem claim_C1_counterexample :
    rankHostsList [⟨0, 1, 0, "5"⟩, ⟨0, 1, 0, "3"⟩] = [⟨"3", 1⟩, ⟨"5", 1⟩] ∧
    decide (rankHostsList [⟨0, 1, 0, "5"⟩, ⟨0, 1, 0, "3"⟩] = [⟨"5", 1⟩, ⟨"3", 1⟩]) = false := by
  decide

/-- Claim C1, amended: the host ranking has at most 15 entries and is
sorted by descending count; entries of equal count appear in the order
the JavaScript object enumerates the keys of the count map, that is
array-index host_ids ascending numerically first, then the remaining
host_ids in first-seen order, rather than overall first-seen order. -/
theorem claim_C1_amended :
    (∀ ls : List Listing, (rankHostsList ls).length ≤ 15) ∧
    (∀ ls : List Listing, (rankHostsList ls).Pairwise fun a b => b.count ≤ a.count) ∧
    (∀ (ls : List Listing) (c : Nat),
      (sortDescByCount (jsObjectEntries (buildHostCount ls))).filter (fun e => e.2 == c)
        = (jsObjectEntries (buildHostCount ls)).filter (fun e => e.2 == c)) := by
  refine ⟨fun ls => ?_, fun ls => ?_, fun ls c => filter_sortDescByCount c _⟩
  · rw [rankHostsList, List.length_take]
    exact min_le_left _ _
  · rw [rankHostsList]
    refine List.Pairwise.sublist (List.take_sublist _ _) ?_
    rw [topHostsOf]
    rw [List.pairwise_map]
    exact pairwise_sortDescByCount _

theorem promptFloat_zero : promptFloat "0" = none := by
  have h : jsParseFloat "0" = some (floatVal ⟨false, ['0'], [], false, []⟩) := rfl
  have hd : digitsToNat ['0'] = 0 := by decide
  have hv : floatVal ⟨false, ['0'], [], false, []⟩ = 0 := by
    simp [floatVal, hd, show digitsToNat [] = 0 from rfl]
  rw [promptFloat, h, hv]
  simp

/-- Claim C2, counterexample: the prompt answer 0 for maxPrice yields
an unset bound, so a listing of price 100 passes the filter, while an
actual maxPrice bound of 0 would reject it; hence an entered 0 does not
constrain the output as the value 0. -/
theorem claim_C2_counterexample :
    promptFloat "0" = none ∧
    filterListings (criteriaOfInputs ⟨"", "0", "", "", ""⟩) [⟨100, 1, 0, "1"⟩]
      = [⟨100, 1, 0, "1"⟩] ∧
    filterListings ⟨none, some 0, none, none, none⟩ [⟨100, 1, 0, "1"⟩] = [] := by
  refine ⟨promptFloat_zero, ?_, by decide⟩
  have hc : criteriaOfInputs ⟨"", "0", "", "", ""⟩ = ⟨none, none, none, none, none⟩ := by
    rw [criteriaOfInputs]
    rw [promptFloat_zero]
    rw [show promptFloat "" = none from by decide, show promptInt "" = none from by decide]
  rw [hc]
  decide

/-- Claim C2, amended: a prompt answer that is blank, unparseable or
parses to the number 0 is treated as unset and imposes no bound; only a
nonzero parsed value becomes an active bound; inside the filter engine
itself a present bound of 0 is active and distinct from null. -/
theorem claim_C2_amended :
    (∀ s : String, jsParseFloat s = none → promptFloat s = none) ∧
    (∀ s : String, jsParseFloat s = some 0 → promptFloat s = none) ∧
    (∀ (s : String) (v : ℚ), jsParseFloat s = some v → v ≠ 0 → promptFloat s = some v) ∧
    (∀ s : String, jsParseInt s = none → promptInt s = none) ∧
    (∀ (s : String) (v : Int), jsParseInt s = some v → v ≠ 0 →
      promptInt s = some ((v : ℚ))) ∧
    promptFloat "" = none ∧
    promptFloat "0" = none ∧
    (∀ ls : List Listing, filterListings ⟨none, some 0, none, none, none⟩ ls
      = ls.filter fun l => decide (l.price ≤ 0)) := by
  refine ⟨fun s h => ?_, fun s h => ?_, fun s v h hv => ?_, fun s h => ?_, fun s v h hv => ?_,
    by decide, promptFloat_zero, fun ls => ?_⟩
  · rw [promptFloat, h]
  · rw [promptFloat, h]
    simp
  · rw [promptFloat, h]
    simp [hv]
  · rw [promptInt, h]
  · rw [promptInt, h]
    simp [hv]
  · refine List.filter_congr fun x _ => ?_
    simp [createFilterFunction]

/-- Witness for claim C2 at the concrete prompt answer 5. -/
theorem claim_C2_witness : promptFloat "5" = some 5 := by
  have h : jsParseFloat "5" = some (floatVal ⟨false, ['5'], [], false, []⟩) := rfl
  have hd : digitsToNat ['5'] = 5 := by decide
  have hv : floatVal ⟨false, ['5'], [], false, []⟩ = 5 := by
    simp [floatVal, hd, show digitsToNat [] = 0 from rfl]
  exact claim_C2_amended.2.2.1 "5" 5 (by rw [h, hv]) (by norm_num)

/-- Claim C3, counterexample: a failed load prints the diagnostics and
produces no analysis output, but the session terminates with exit
status zero, not a non-zero status. -/
theorem claim_C3_counterexample :
    (runSession (Except.error "ENOENT") ⟨"", "", "", "", ""⟩ "" true).exitCode = 0 ∧
    (runSession (Except.error "ENOENT") ⟨"", "", "", "", ""⟩ "" true).loadDiagnostic = true ∧
    (runSession (Except.error "ENOENT") ⟨"", "", "", "", ""⟩ "" true).analysisShown = false := by
  decide

/-- Claim C3, amended: a load or parse failure prints a diagnostic and
produces no analysis output, but the process still exits with status
zero because run catches the error; a normally completing session also
exits with status zero. -/
theorem claim_C3_amended :
    (∀ (e : String) (p : PromptInputs) (ep : String) (w : Bool),
      runSession (Except.error e) p ep w
        = { exitCode := 0, loadDiagnostic := true, analysisShown := false,
            exportOutcome := none }) ∧
    (∀ (rows : List RawRow) (p : PromptInputs) (ep : String) (w : Bool),
      (runSession (Except.ok rows) p ep w).exitCode = 0 ∧
      (runSession (Except.ok rows) p ep w).loadDiagnostic = false ∧
      (runSession (Except.ok rows) p ep w).analysisShown = true) :=
  ⟨fun _ _ _ _ => rfl, fun _ _ _ _ => ⟨rfl, rfl, rfl⟩⟩

/-- Claim C9: exporting an empty record set writes nothing and reports
that there is no data; a failing write on a non-empty set is reported
without a file being written and the session continues with exit
status zero and the analysis still shown. -/
theorem claim_C9 :
    (∀ w : Bool, exportData [] w = { wrote := false, msg := ExportMsg.nothingToExport }) ∧
    (∀ (l : Listing) (rs : List Listing),
      exportData (l :: rs) false = { wrote := false, msg := ExportMsg.writeError }) ∧
    (∀ (l : Listing) (rs : List Listing),
      exportData (l :: rs) true = { wrote := true, msg := ExportMsg.exportedOk }) ∧
    (∀ (rows : List RawRow) (p : PromptInputs) (ep : String),
      (runSession (Except.ok rows) p ep false).exitCode = 0 ∧
      (runSession (Except.ok rows) p ep false).analysisShown = true) :=
  ⟨fun _ => rfl, fun _ _ => rfl, fun _ _ => rfl, fun _ _ _ => ⟨rfl, rfl⟩⟩
